import Mathlib

/-!
Shallow embedding of the sphere projection-and-clipping kernel of the
jojosphere repository (module `src/geometry/projection`, final revision found
in `src/components/FreeNumberInput.tsx`).  JavaScript numbers are modelled as
real numbers; `Math.cos`/`Math.sin`/`Math.sqrt`/`Math.atan2` become the
corresponding real functions.  Shape values are runtime JavaScript objects
carrying a string tag (`shape.type`), so the embedding models the tag as a
`String`; this is what makes "unrecognized shape variant" and "unrecognized
projection mode" statable at all, mirroring the untyped runtime dispatch.
-/

noncomputable section

namespace Jojosphere

/-- Parametric UV point, `{ u, v }` in the source. -/
structure Vec2 where
  u : ℝ
  v : ℝ

/-- Sphere-space point, `{ x, y, z }` in the source. -/
structure Vec3 where
  x : ℝ
  y : ℝ
  z : ℝ

/-- Projected screen-space point, `Vec2XY` in the source. -/
structure Vec2XY where
  x : ℝ
  y : ℝ

/-- Euler angles in radians, `Rotation` in the source. -/
structure Rotation where
  rx : ℝ
  ry : ℝ
  rz : ℝ

/-- Optional U/V flips, `UvOrientation` in the source (absent flags read as
false, matching JavaScript truthiness of `undefined`). -/
structure UvOrientation where
  flipU : Bool
  flipV : Bool

/-- Rectangle size record `{ w, h }`. -/
structure Size where
  w : ℝ
  h : ℝ

/-- Runtime shape object.  The source's `Shape` is a tagged union
(`line | rect | circle | polygon | latitude | longitude`); at runtime a shape
is a JavaScript object with a `type` string and whichever geometric fields its
variant carries.  The embedding gives one record holding the union of all
fields (unused fields default to zero, as reading them never happens for the
recognized tags), so that dispatch on the runtime tag is representable. -/
structure Shape where
  type : String
  a : Vec2 := ⟨0, 0⟩
  b : Vec2 := ⟨0, 0⟩
  origin : Vec2 := ⟨0, 0⟩
  size : Size := ⟨0, 0⟩
  center : Vec2 := ⟨0, 0⟩
  radius : ℝ := 0
  sides : Nat := 3
  rotationOffset : ℝ := 0
  v : ℝ := 0
  u : ℝ := 0

/-- `orientUV(point, orientation?)` from the source: apply the optional
flipU/flipV flags before mapping. -/
def orientUV (point : Vec2) (orientationOpt : Option UvOrientation) : Vec2 :=
  match orientationOpt with
  | none => point
  | some o =>
      ⟨if o.flipU then 1 - point.u else point.u,
       if o.flipV then 1 - point.v else point.v⟩

/-- `uvToSphere(u, v)`: longitude `theta = 2*pi*u - pi`, latitude
`phi = pi*v - pi/2`; returns `(cos phi * cos theta, sin phi, cos phi * sin theta)`. -/
def uvToSphere (u v : ℝ) : Vec3 :=
  let theta := 2 * Real.pi * u - Real.pi
  let phi := Real.pi * v - Real.pi / 2
  ⟨Real.cos phi * Real.cos theta, Real.sin phi, Real.cos phi * Real.sin theta⟩

/-- `applyRotation(p, rot)`: the closed-form composition `R = Rz * Ry * Rx`
exactly as written in the source (Rx applied first, then Ry, then Rz). -/
def applyRotation (p : Vec3) (rot : Rotation) : Vec3 :=
  let sinX := Real.sin rot.rx
  let cosX := Real.cos rot.rx
  let sinY := Real.sin rot.ry
  let cosY := Real.cos rot.ry
  let sinZ := Real.sin rot.rz
  let cosZ := Real.cos rot.rz
  -- Rx
  let x1 := p.x
  let y1 := p.y * cosX - p.z * sinX
  let z1 := p.y * sinX + p.z * cosX
  -- Ry
  let x2 := x1 * cosY + z1 * sinY
  let y2 := y1
  let z2 := -x1 * sinY + z1 * cosY
  -- Rz
  let x3 := x2 * cosZ - y2 * sinZ
  let y3 := x2 * sinZ + y2 * cosZ
  let z3 := z2
  ⟨x3, y3, z3⟩

/-- `projectOrthographic(p, allowBack = false)`: culls (`null`) when
`z < 0` unless `allowBack`; otherwise the identity on `(x, y)`. -/
def projectOrthographic (p : Vec3) (allowBack : Bool) : Option Vec2XY :=
  if allowBack = false ∧ p.z < 0 then none else some ⟨p.x, p.y⟩

/-- `projectPerspective(p, cameraZ = 4)`: culls when `cameraZ - z <= 0`,
else scales `(x, y)` by `cameraZ / (cameraZ - z)`. -/
def projectPerspective (p : Vec3) (cameraZ : ℝ) : Option Vec2XY :=
  let denom := cameraZ - p.z
  if denom ≤ 0 then none else some ⟨p.x * cameraZ / denom, p.y * cameraZ / denom⟩

/-- `projectStereographic(p)`: culls when `1 - z <= 1e-6`. -/
def projectStereographic (p : Vec3) : Option Vec2XY :=
  let denom := 1 - p.z
  if denom ≤ 1 / 1000000 then none else some ⟨p.x / denom, p.y / denom⟩

/-- The projection-mode dispatch ternary appearing (twice) inside
`projectShapeToXY`:
`projection === 'orthographic' ? projectOrthographic(p, allowBack)
 : projection === 'perspective' ? projectPerspective(p) : projectStereographic(p)`.
Any string other than the two tested ones falls through to the
stereographic projector. -/
def projectPoint3 (projection : String) (allowBack : Bool) (p : Vec3) : Option Vec2XY :=
  if projection = "orthographic" then projectOrthographic p allowBack
  else if projection = "perspective" then projectPerspective p 4
  else projectStereographic p

/-- Tessellator output: ordered UV sample sequence plus closed flag. -/
structure TessellatedShape where
  points : List Vec2
  closed : Bool

/-- `sampleLine`: `samples + 1` linear-interpolation points, open. -/
def sampleLine (shape : Shape) (samples : Nat) : TessellatedShape :=
  ⟨(List.range (samples + 1)).map (fun (i : ℕ) =>
      let t : ℝ := (i : ℝ) / (samples : ℝ)
      ⟨shape.a.u + t * (shape.b.u - shape.a.u),
       shape.a.v + t * (shape.b.v - shape.a.v)⟩),
   false⟩

/-- `sampleRect`: perimeter walked corner-to-corner, `max 2 (samples / 4)`
interior steps per edge (each edge contributes `perEdge + 1` points), closed. -/
def sampleRect (shape : Shape) (samples : Nat) : TessellatedShape :=
  let perEdge := max 2 (samples / 4)
  let corners : List Vec2 :=
    [⟨shape.origin.u, shape.origin.v⟩,
     ⟨shape.origin.u + shape.size.w, shape.origin.v⟩,
     ⟨shape.origin.u + shape.size.w, shape.origin.v + shape.size.h⟩,
     ⟨shape.origin.u, shape.origin.v + shape.size.h⟩]
  ⟨(List.range 4).flatMap (fun edge =>
      let start := corners.getD edge ⟨0, 0⟩
      let stop := corners.getD ((edge + 1) % 4) ⟨0, 0⟩
      (List.range (perEdge + 1)).map (fun (i : ℕ) =>
        let t : ℝ := (i : ℝ) / (perEdge : ℝ)
        ⟨start.u + t * (stop.u - start.u), start.v + t * (stop.v - start.v)⟩)),
   true⟩

/-- `sampleCircle`: `steps = max 64 (samples * 2)` and `steps + 1` parametric
points (the last duplicating the first), closed. -/
def sampleCircle (shape : Shape) (samples : Nat) : TessellatedShape :=
  let steps := max 64 (samples * 2)
  ⟨(List.range (steps + 1)).map (fun (i : ℕ) =>
      let t : ℝ := ((i : ℝ) / (steps : ℝ)) * Real.pi * 2
      ⟨shape.center.u + shape.radius * Real.cos t,
       shape.center.v + shape.radius * Real.sin t⟩),
   true⟩

/-- `samplePolygon`: exactly `sides + 1` vertices at
`rotationOffset + k * 2 * pi / sides` (the source computes an unused local
`steps = max sides samples`; the loop runs over `sides` alone), closed. -/
def samplePolygon (shape : Shape) (_samples : Nat) : TessellatedShape :=
  ⟨(List.range (shape.sides + 1)).map (fun (i : ℕ) =>
      let t : ℝ := (i : ℝ) / (shape.sides : ℝ)
      let ang := shape.rotationOffset + t * Real.pi * 2
      ⟨shape.center.u + shape.radius * Real.cos ang,
       shape.center.v + shape.radius * Real.sin ang⟩),
   true⟩

/-- `sampleLatitude`: constant `v`, `samples + 1` points across `u ∈ [0,1]`,
reported closed. -/
def sampleLatitude (shape : Shape) (samples : Nat) : TessellatedShape :=
  ⟨(List.range (samples + 1)).map (fun (i : ℕ) => ⟨(i : ℝ) / (samples : ℝ), shape.v⟩), true⟩

/-- `sampleLongitude`: constant `u`, `samples + 1` points across `v ∈ [0,1]`,
reported closed. -/
def sampleLongitude (shape : Shape) (samples : Nat) : TessellatedShape :=
  ⟨(List.range (samples + 1)).map (fun (i : ℕ) => ⟨shape.u, (i : ℝ) / (samples : ℝ)⟩), true⟩

/-- `tessellateShape(shape, samples = 32)`: dispatch on the runtime tag; the
final `return sampleCircle(shape, samples)` is reached by the `circle` tag and
by every tag not otherwise tested. -/
def tessellateShape (shape : Shape) (samples : Nat) : TessellatedShape :=
  if shape.type = "line" then sampleLine shape samples
  else if shape.type = "rect" then sampleRect shape samples
  else if shape.type = "polygon" then samplePolygon shape samples
  else if shape.type = "latitude" then sampleLatitude shape samples
  else if shape.type = "longitude" then sampleLongitude shape samples
  else sampleCircle shape samples

/-- `interpolateAtZ0(p0, p1)`: linear interpolation at `t = z0 / (z0 - z1)`,
with the `z` component set literally to `0`. -/
def interpolateAtZ0 (p0 p1 : Vec3) : Vec3 :=
  let t := p0.z / (p0.z - p1.z)
  ⟨p0.x + t * (p1.x - p0.x), p0.y + t * (p1.y - p0.y), 0⟩

/-- `clipPolylineToFrontHemisphere(points, closed)`: walk consecutive pairs
(wrapping once when `closed`), keep front points (`z >= 0`) and insert the
`z = 0` crossing whenever a pair straddles the plane.  The source's push-loop
is rendered as a `flatMap` of the per-iteration emissions. -/
def clipPolylineToFrontHemisphere (points : List Vec3) (closed : Bool) : List Vec3 :=
  if points.length = 0 then []
  else
    let n := points.length
    let count := if closed then n else n - 1
    (List.range count).flatMap (fun i =>
      let current := points.getD i ⟨0, 0, 0⟩
      let next := points.getD ((i + 1) % n) ⟨0, 0, 0⟩
      let currentFront := decide (0 ≤ current.z)
      let nextFront := decide (0 ≤ next.z)
      (if currentFront then [current] else []) ++
        (if currentFront ≠ nextFront then [interpolateAtZ0 current next] else []))

/-- `clipPolygonToFrontHemisphere(points)`: Sutherland-Hodgman against the
half-space `z >= 0`; for each vertex, look at its predecessor (with wraparound),
emit the crossing on a side change and the vertex itself when inside.
`(i - 1 + n) % n` is written `(i + n - 1) % n`, the same value for `n >= 1`
but well defined over `Nat`. -/
def clipPolygonToFrontHemisphere (points : List Vec3) : List Vec3 :=
  if points.length = 0 then []
  else
    let n := points.length
    (List.range n).flatMap (fun i =>
      let current := points.getD i ⟨0, 0, 0⟩
      let prev := points.getD ((i + n - 1) % n) ⟨0, 0, 0⟩
      let currentInside := decide (0 ≤ current.z)
      let prevInside := decide (0 ≤ prev.z)
      if currentInside then
        (if prevInside = false then [interpolateAtZ0 prev current] else []) ++ [current]
      else if prevInside then [interpolateAtZ0 prev current]
      else [])

/-- `polygonArea(points)`: half the signed shoelace sum over wrapped
consecutive pairs. -/
def polygonArea (points : List Vec2XY) : ℝ :=
  ((List.range points.length).foldl (fun area i =>
      let p1 := points.getD i ⟨0, 0⟩
      let p2 := points.getD ((i + 1) % points.length) ⟨0, 0⟩
      area + (p1.x * p2.y - p2.x * p1.y)) 0) / 2

/-- Intersection record `{ point, t }` of `segmentCircleIntersections`. -/
structure TPoint where
  point : Vec2XY
  t : ℝ

/-- `segmentCircleIntersections(p0, p1)`: solve the line-unit-circle quadratic,
keep roots in `[0, 1]`, drop a second root within `1e-6` of the first, sort by
parameter. -/
def segmentCircleIntersections (p0 p1 : Vec2XY) : List TPoint :=
  let dx := p1.x - p0.x
  let dy := p1.y - p0.y
  let a := dx * dx + dy * dy
  let b := 2 * (p0.x * dx + p0.y * dy)
  let c := p0.x * p0.x + p0.y * p0.y - 1
  let disc := b * b - 4 * a * c
  if disc < 0 then []
  else
    let sqrtDisc := Real.sqrt disc
    let t1 := (-b - sqrtDisc) / (2 * a)
    let t2 := (-b + sqrtDisc) / (2 * a)
    let result :=
      (if 0 ≤ t1 ∧ t1 ≤ 1 then [⟨⟨p0.x + t1 * dx, p0.y + t1 * dy⟩, t1⟩] else []) ++
        (if (0 ≤ t2 ∧ t2 ≤ 1) ∧ 1 / 1000000 < |t2 - t1| then
          [⟨⟨p0.x + t2 * dx, p0.y + t2 * dy⟩, t2⟩]
        else [])
    result.mergeSort (fun A B => decide (A.t ≤ B.t))

/-- `Math.atan2(y, x)`, modelled by the complex argument of `x + y*i`
(both have range `(-pi, pi]` and agree at the origin). -/
def atan2 (y x : ℝ) : ℝ := Complex.arg ⟨x, y⟩

/-- `arcPoints(from, to, ccw)`: sample the unit-circle arc from `from` to `to`
swept in the `ccw` direction with roughly 2-degree steps (minimum 4), emitting
the interior samples then `to` itself.  (The source's `segments = 32` default
parameter is never read.) -/
def arcPoints (fromPt toPt : Vec2XY) (ccw : Bool) : List Vec2XY :=
  let a0 := atan2 fromPt.y fromPt.x
  let a1 := atan2 toPt.y toPt.x
  let delta0 := a1 - a0
  let delta :=
    if ccw = true ∧ delta0 ≤ 0 then delta0 + Real.pi * 2
    else if ccw = false ∧ 0 ≤ delta0 then delta0 - Real.pi * 2
    else delta0
  let steps := max 4 (Int.toNat ⌈|delta| / (Real.pi / 90)⌉)
  ((List.range (steps - 1)).map (fun j =>
      let t : ℝ := ((j + 1 : ℕ) : ℝ) / (steps : ℝ)
      let ang := a0 + delta * t
      ⟨Real.cos ang, Real.sin ang⟩)) ++ [toPt]

/-- The `x*x + y*y <= 1 + 1e-9` inside test of `clipFillWithArcs`. -/
def insideUnit (p : Vec2XY) : Bool :=
  decide (p.x * p.x + p.y * p.y ≤ 1 + 1 / 1000000000)

/-- Loop state of `clipFillWithArcs`: emitted output, the pending arc start,
and the previous vertex with its inside flag. -/
structure ArcClipState where
  output : List Vec2XY
  pending : Option Vec2XY
  prev : Vec2XY
  prevInside : Bool

/-- One iteration of the `clipFillWithArcs` loop body, exactly following the
source's four cases (inside-inside, exiting, entering, outside-outside). -/
def clipFillStep (ccw : Bool) (st : ArcClipState) (curr : Vec2XY) : ArcClipState :=
  let currInside := insideUnit curr
  let intersections := segmentCircleIntersections st.prev curr
  let st1 :=
    if st.prevInside = true ∧ currInside = true then
      { st with output := st.output ++ [curr] }
    else if st.prevInside = true ∧ currInside = false then
      match intersections.head? with
      | some ex => { st with output := st.output ++ [ex.point], pending := some ex.point }
      | none => st
    else if st.prevInside = false ∧ currInside = true then
      match intersections.getLast? with
      | some en =>
          match st.pending with
          | some pa =>
              { st with output := st.output ++ arcPoints pa en.point ccw ++ [curr],
                        pending := none }
          | none => { st with output := st.output ++ [en.point] ++ [curr] }
      | none => { st with output := st.output ++ [curr] }
    else
      if intersections.length = 2 then
        let entry := intersections.getD 0 ⟨⟨0, 0⟩, 0⟩
        let exit := intersections.getD 1 ⟨⟨0, 0⟩, 0⟩
        match st.pending with
        | some pa =>
            { st with output := st.output ++ arcPoints pa entry.point ccw ++
                        [entry.point] ++ [exit.point],
                      pending := some exit.point }
        | none =>
            { st with output := st.output ++ [entry.point] ++ [exit.point],
                      pending := some exit.point }
      else st
  { st1 with prev := curr, prevInside := currInside }

/-- `clipFillWithArcs(points)`: 2D silhouette clip of a closed polygon against
the unit circle, replacing off-circle excursions by sampled arcs; winding
direction is read once from the signed area, and an arc still pending at loop
end is closed back to the first emitted point. -/
def clipFillWithArcs (points : List Vec2XY) : List Vec2XY :=
  match points with
  | [] => []
  | _ :: _ =>
      let ccw := decide (0 ≤ polygonArea points)
      let prev0 := points.getLastD ⟨0, 0⟩
      let st0 : ArcClipState := ⟨[], none, prev0, insideUnit prev0⟩
      let stFin := points.foldl (clipFillStep ccw) st0
      match stFin.pending, stFin.output with
      | some pa, q :: _ => stFin.output ++ arcPoints pa q ccw
      | _, _ => stFin.output

/-- Result record of `projectShapeToXY`:
`{ points, backPoints?, closed }`. -/
structure ProjResult where
  points : List Vec2XY
  backPoints : Option (List Vec2XY)
  closed : Bool

/-- The tessellate / orient / map-to-sphere / rotate prefix of
`projectShapeToXY` (its `rotated` array). -/
def rotatedPoints (shape : Shape) (rot : Rotation) (samples : Nat)
    (orientationOpt : Option UvOrientation) : List Vec3 :=
  (tessellateShape shape samples).points.map (fun uv =>
    let oriented := orientUV uv orientationOpt
    applyRotation (uvToSphere oriented.u oriented.v) rot)

/-- The split-mode loop of `projectShapeToXY`: route each rotated point to the
front (`z >= 0`) or back bucket, project it with back-face inclusion forced
on, and keep it when the projector does not cull. -/
def splitProject (projection : String) (rotated : List Vec3) :
    List Vec2XY × List Vec2XY :=
  rotated.foldl (fun acc p =>
      match projectPoint3 projection true p with
      | none => acc
      | some xy => if 0 ≤ p.z then (acc.1 ++ [xy], acc.2) else (acc.1, acc.2 ++ [xy]))
    ([], [])

/-- The `clipped3D` selection of `projectShapeToXY`'s non-split path:
back faces included verbatim, great-circle rings clipped as wraparound open
curves, closed shapes polygon-clipped, open shapes polyline-clipped. -/
def clipped3D (shape : Shape) (rot : Rotation) (samples : Nat)
    (orientationOpt : Option UvOrientation) (includeBackFaces : Bool) : List Vec3 :=
  let rotated := rotatedPoints shape rot samples orientationOpt
  let closed := (tessellateShape shape samples).closed
  let isGreatCircle := shape.type = "latitude" ∨ shape.type = "longitude"
  if includeBackFaces then rotated
  else if isGreatCircle then clipPolylineToFrontHemisphere rotated true
  else if closed then clipPolygonToFrontHemisphere rotated
  else clipPolylineToFrontHemisphere rotated closed

/-- The projection loop of the non-split path: dispatch each clipped point and
keep the non-culled results. -/
def projectedPreSilhouette (shape : Shape) (rot : Rotation) (samples : Nat)
    (projection : String) (orientationOpt : Option UvOrientation)
    (includeBackFaces : Bool) : List Vec2XY :=
  (clipped3D shape rot samples orientationOpt includeBackFaces).filterMap
    (projectPoint3 projection includeBackFaces)

/-- The guard of the silhouette-clip step, literally
`closed && shape.type !== 'line' && projection === 'orthographic'`. -/
def silhouetteApplied (shape : Shape) (samples : Nat) (projection : String) : Bool :=
  (tessellateShape shape samples).closed && !(shape.type == "line") &&
    (projection == "orthographic")

/-- `projectShapeToXY(shape, rotation, samples = 32, projection =
'orthographic', orientation?, includeBackFaces = false, splitBackFaces =
false)`: the pipeline orchestrator, assembled from the named stages above
exactly as in the source. -/
def projectShapeToXY (shape : Shape) (rot : Rotation) (samples : Nat)
    (projection : String) (orientationOpt : Option UvOrientation)
    (includeBackFaces : Bool) (splitBackFaces : Bool) : ProjResult :=
  let closed := (tessellateShape shape samples).closed
  if includeBackFaces && splitBackFaces then
    let fb := splitProject projection (rotatedPoints shape rot samples orientationOpt)
    ⟨fb.1, some fb.2, closed⟩
  else
    let projected :=
      projectedPreSilhouette shape rot samples projection orientationOpt includeBackFaces
    ⟨if silhouetteApplied shape samples projection then clipFillWithArcs projected
      else projected,
     none, closed⟩

/-! ## Concrete sample inputs used by counterexamples and witnesses -/

/-- A runtime shape object whose tag matches none of the recognized variants. -/
def blobShape : Shape := { type := "blob", center := ⟨0, 0⟩, radius := 1 }

/-- A latitude ring at `v = 1/2` (the equator). -/
def latEx : Shape := { type := "latitude", v := 1 / 2 }

/-- A line shape from `(0, 0)` to `(1, 1)`. -/
def lineEx : Shape := { type := "line", a := ⟨0, 0⟩, b := ⟨1, 1⟩ }

/-- A circle shape of radius `1/4` centred in UV space. -/
def circleEx : Shape := { type := "circle", center := ⟨1 / 2, 1 / 2⟩, radius := 1 / 4 }

/-- The identity rotation. -/
def rot0 : Rotation := ⟨0, 0, 0⟩

/-- Sagitta measure of a tessellation chord against the analytic circle with
the given center and radius: the radius minus the distance from the center to
the chord's midpoint.  For a chord whose endpoints lie on the circle this is
exactly the maximum distance between the chord and the arc it subtends. -/
def chordDeviation (center : Vec2) (radius : ℝ) (p q : Vec2) : ℝ :=
  radius - Real.sqrt (((p.u + q.u) / 2 - center.u) ^ 2 + ((p.v + q.v) / 2 - center.v) ^ 2)

/-- Maximum chord deviation of a tessellated shape from its analytic circle:
the maximum sagitta over consecutive sample pairs of the tessellation
(`0` for an empty chord list). -/
def maxChordDeviation (shape : Shape) (samples : Nat) : ℝ :=
  let pts := (tessellateShape shape samples).points
  ((pts.zip pts.tail).map
    (fun pq => chordDeviation shape.center shape.radius pq.1 pq.2)).foldr max 0

/-! ## C4 -/

/-- C4: for every real `u` and `v`, `uvToSphere u v` has the components
`(cos phi * cos theta, sin phi, cos phi * sin theta)` for
`theta = 2*pi*u - pi` and `phi = pi*v - pi/2`, and its Euclidean norm is
exactly `1` (hence within `1e-9` of `1`); the function is total, so there are
no error cases. -/
theorem claim4_uvToSphere_unit_norm : ∀ u v : ℝ,
    (uvToSphere u v).x =
      Real.cos (Real.pi * v - Real.pi / 2) * Real.cos (2 * Real.pi * u - Real.pi) ∧
    (uvToSphere u v).y = Real.sin (Real.pi * v - Real.pi / 2) ∧
    (uvToSphere u v).z =
      Real.cos (Real.pi * v - Real.pi / 2) * Real.sin (2 * Real.pi * u - Real.pi) ∧
    Real.sqrt ((uvToSphere u v).x ^ 2 + (uvToSphere u v).y ^ 2 + (uvToSphere u v).z ^ 2)
      = 1 := by
  intro u v
  refine ⟨rfl, rfl, rfl, ?_⟩
  have h1 := Real.sin_sq_add_cos_sq (Real.pi * v - Real.pi / 2)
  have h2 := Real.sin_sq_add_cos_sq (2 * Real.pi * u - Real.pi)
  have hsum : (uvToSphere u v).x ^ 2 + (uvToSphere u v).y ^ 2 + (uvToSphere u v).z ^ 2
      = 1 := by
    simp only [uvToSphere]
    nlinarith [h1, h2]
  rw [hsum, Real.sqrt_one]

/-! ## C6 -/

/-- C6 counterexample: rotating `(1,0,0)` by `rx = pi/2` does not move it into
the y/z plane — the point lies on the X axis, so its image keeps
x-coordinate `1`, refuting the claim's expected output. -/
theorem claim6_counterexample :
    ¬ (applyRotation ⟨1, 0, 0⟩ ⟨Real.pi / 2, 0, 0⟩).x = 0 := by
  simp [applyRotation]

/-- C6 (amended): `(1,0,0)` is on the X axis and is left fixed by
`{rx = pi/2, ry = 0, rz = 0}`; the off-axis point `(0,1,0)` is carried to
`(0,0,1)`, which lies in the y/z plane (x-coordinate `0`), consistent with the
rotation order `R = Rz * Ry * Rx` (rotate about X first). -/
theorem claim6_amended :
    applyRotation ⟨0, 1, 0⟩ ⟨Real.pi / 2, 0, 0⟩ = ⟨0, 0, 1⟩ ∧
    applyRotation ⟨1, 0, 0⟩ ⟨Real.pi / 2, 0, 0⟩ = ⟨1, 0, 0⟩ := by
  constructor <;> simp [applyRotation]

/-! ## C7 -/

/-- C7: `projectOrthographic p false` is `none` iff `p.z < 0`;
`projectOrthographic p true` is never `none`; and every non-`none` result
equals `(p.x, p.y)`. -/
theorem claim7_projectOrthographic : ∀ p : Vec3,
    (projectOrthographic p false = none ↔ p.z < 0) ∧
    projectOrthographic p true = some ⟨p.x, p.y⟩ ∧
    ∀ (allowBack : Bool) (q : Vec2XY),
      projectOrthographic p allowBack = some q → q = ⟨p.x, p.y⟩ := by
  intro p
  refine ⟨?_, ?_, ?_⟩
  · by_cases hz : p.z < 0 <;> simp [projectOrthographic, hz]
  · simp [projectOrthographic]
  · intro allowBack q hq
    by_cases hz : p.z < 0 <;> cases allowBack <;>
      simp [projectOrthographic, hz] at hq <;> simp [hq]

/-- C7 witness: instantiation at `p = (1, 2, -3)` with `allowBack = true`. -/
theorem claim7_witness : (⟨1, 2⟩ : Vec2XY) = ⟨(⟨1, 2, -3⟩ : Vec3).x, (⟨1, 2, -3⟩ : Vec3).y⟩ :=
  (claim7_projectOrthographic ⟨1, 2, -3⟩).2.2 true ⟨1, 2⟩ (by simp [projectOrthographic])

/-! ## C1 -/

/-- C1 (amended): the kernel does not fail fast on unrecognized tags — for
every shape whose tag is none of the five tested ones, `tessellateShape`
silently falls back to the circle sampler, and for every projection-mode
string other than `orthographic`/`perspective` the dispatch silently falls
back to the stereographic projector. -/
theorem claim1_amended :
    (∀ (s : Shape) (samples : Nat),
      s.type ≠ "line" → s.type ≠ "rect" → s.type ≠ "polygon" →
      s.type ≠ "latitude" → s.type ≠ "longitude" →
      tessellateShape s samples = sampleCircle s samples) ∧
    (∀ (projection : String) (allowBack : Bool) (p : Vec3),
      projection ≠ "orthographic" → projection ≠ "perspective" →
      projectPoint3 projection allowBack p = projectStereographic p) := by
  constructor
  · intro s samples h1 h2 h3 h4 h5
    simp [tessellateShape, h1, h2, h3, h4, h5]
  · intro projection allowBack p h1 h2
    simp [projectPoint3, h1, h2]

/-- C1 counterexample: on the unrecognized tag `"blob"`, `tessellateShape`
produces the circle sampler's output instead of failing, and on the
unrecognized mode `"gnomonic"` the dispatch produces the stereographic
projector's output instead of failing. -/
theorem claim1_counterexample :
    tessellateShape blobShape 32 = sampleCircle blobShape 32 ∧
    blobShape.type ≠ "line" ∧ blobShape.type ≠ "rect" ∧
    blobShape.type ≠ "polygon" ∧ blobShape.type ≠ "latitude" ∧
    blobShape.type ≠ "longitude" ∧
    projectPoint3 "gnomonic" false ⟨0, 0, 0⟩ = projectStereographic ⟨0, 0, 0⟩ := by
  refine ⟨?_, by decide, by decide, by decide, by decide, by decide, ?_⟩
  · simp [tessellateShape, blobShape]
  · simp [projectPoint3]

/-- C1 witness: the amended theorem applied to the `"blob"` shape and the
`"gnomonic"` mode. -/
theorem claim1_witness :
    tessellateShape blobShape 16 = sampleCircle blobShape 16 ∧
    projectPoint3 "mercator" true ⟨0, 1, 0⟩ = projectStereographic ⟨0, 1, 0⟩ :=
  ⟨claim1_amended.1 blobShape 16 (by decide) (by decide) (by decide) (by decide) (by decide),
   claim1_amended.2 "mercator" true ⟨0, 1, 0⟩ (by decide) (by decide)⟩

/-! ## C2 -/

/-- C2 counterexample: a latitude ring is a great-circle ring, yet in the
non-split orthographic path the silhouette-clip guard is satisfied for it and
`projectShapeToXY` does pass its projection through `clipFillWithArcs` —
refuting "never run for latitude or longitude rings". -/
theorem claim2_counterexample :
    (latEx.type = "latitude" ∨ latEx.type = "longitude") ∧
    silhouetteApplied latEx 4 "orthographic" = true ∧
    (projectShapeToXY latEx rot0 4 "orthographic" none false false).points =
      clipFillWithArcs (projectedPreSilhouette latEx rot0 4 "orthographic" none false) := by
  refine ⟨Or.inl rfl, ?_, ?_⟩
  · simp [silhouetteApplied, tessellateShape, sampleLatitude, latEx]
  · simp [projectShapeToXY, silhouetteApplied, tessellateShape, sampleLatitude, latEx]

/-- C2 (amended): in the non-split path the silhouette clipper is run exactly
when the projection mode is orthographic, the tessellation is closed and the
shape's tag is not `line`; since latitude and longitude rings tessellate as
closed non-line shapes, the clipper IS run for them under orthographic
projection (the original claim excluded great-circle rings). -/
theorem claim2_amended : ∀ (shape : Shape) (rot : Rotation) (samples : Nat)
    (projection : String) (orientationOpt : Option UvOrientation)
    (includeBackFaces : Bool),
    (silhouetteApplied shape samples projection = true ↔
      (projection = "orthographic" ∧ (tessellateShape shape samples).closed = true ∧
        shape.type ≠ "line")) ∧
    (projectShapeToXY shape rot samples projection orientationOpt includeBackFaces
        false).points =
      (if silhouetteApplied shape samples projection = true then
        clipFillWithArcs
          (projectedPreSilhouette shape rot samples projection orientationOpt
            includeBackFaces)
      else
        projectedPreSilhouette shape rot samples projection orientationOpt
          includeBackFaces) := by
  intro shape rot samples projection orientationOpt includeBackFaces
  constructor
  · simp only [silhouetteApplied, Bool.and_eq_true, beq_iff_eq, Bool.not_eq_true',
      beq_eq_false_iff_ne, ne_eq]
    tauto
  · simp [projectShapeToXY]

/-! ## C3 -/

/-- Unfolding of the split-mode fold: the front bucket is the projection of
the points with `z >= 0` and the back bucket the projection of the rest, each
through the dispatch with back-face inclusion forced on. -/
lemma splitProject_go (projection : String) : ∀ (rotated : List Vec3)
    (f b : List Vec2XY),
    rotated.foldl (fun acc p =>
        match projectPoint3 projection true p with
        | none => acc
        | some xy => if 0 ≤ p.z then (acc.1 ++ [xy], acc.2) else (acc.1, acc.2 ++ [xy]))
      (f, b) =
      (f ++ (rotated.filter (fun p => decide (0 ≤ p.z))).filterMap
          (projectPoint3 projection true),
       b ++ (rotated.filter (fun p => !decide (0 ≤ p.z))).filterMap
          (projectPoint3 projection true)) := by
  intro rotated
  induction rotated with
  | nil => simp
  | cons p t ih =>
      intro f b
      simp only [List.foldl_cons, List.filter_cons]
      by_cases hz : 0 ≤ p.z
      · cases hxy : projectPoint3 projection true p with
        | none => simp [hxy, hz, ih, List.filterMap_cons]
        | some xy => simp [hxy, hz, ih, List.filterMap_cons]
      · cases hxy : projectPoint3 projection true p with
        | none => simp [hxy, hz, ih, List.filterMap_cons]
        | some xy => simp [hxy, hz, ih, List.filterMap_cons]

/-- The split-mode loop in closed form. -/
lemma splitProject_eq (projection : String) (rotated : List Vec3) :
    splitProject projection rotated =
      ((rotated.filter (fun p => decide (0 ≤ p.z))).filterMap
          (projectPoint3 projection true),
       (rotated.filter (fun p => !decide (0 ≤ p.z))).filterMap
          (projectPoint3 projection true)) := by
  simpa [splitProject] using splitProject_go projection rotated [] []

/-- C3 counterexample: with `splitBackFaces` set but `includeBackFaces` clear,
`projectShapeToXY` does not take the split branch — it returns no back-point
sequence at all, refuting "whenever the splitBackFaces flag is set". -/
theorem claim3_counterexample :
    (projectShapeToXY lineEx rot0 4 "orthographic" none false true).backPoints
      = none := by
  simp [projectShapeToXY]

/-- C3 (amended): whenever BOTH `includeBackFaces` and `splitBackFaces` are
set, `projectShapeToXY` partitions the rotated points by the sign of rotated z
(`z >= 0` goes to the front bucket), projects both buckets independently with
back-face inclusion forced on, and returns the two sequences (front, back);
the result is built from the rotated points alone, with no hemisphere or
silhouette clipping. -/
theorem claim3_amended : ∀ (shape : Shape) (rot : Rotation) (samples : Nat)
    (projection : String) (orientationOpt : Option UvOrientation),
    projectShapeToXY shape rot samples projection orientationOpt true true =
      ⟨((rotatedPoints shape rot samples orientationOpt).filter
          (fun p => decide (0 ≤ p.z))).filterMap (projectPoint3 projection true),
       some (((rotatedPoints shape rot samples orientationOpt).filter
          (fun p => !decide (0 ≤ p.z))).filterMap (projectPoint3 projection true)),
       (tessellateShape shape samples).closed⟩ := by
  intro shape rot samples projection orientationOpt
  simp [projectShapeToXY, splitProject_eq]

/-! ## C5 and C10: hemisphere clipping -/

/-- An in-range defaulted access lands in the list. -/
lemma getD_mem_of_lt {α : Type} (l : List α) (d : α) (i : ℕ) (h : i < l.length) :
    l[i]?.getD d ∈ l := by
  rw [List.getElem?_eq_getElem h, Option.getD_some]
  exact List.getElem_mem _

/-- Flat-mapping the singleton accessor over all indices rebuilds the list. -/
lemma flatMap_singleton_getD {α : Type} (l : List α) (d : α) :
    (List.range l.length).flatMap (fun i => [l[i]?.getD d]) = l := by
  have h1 : ∀ (m : List ℕ) (g : ℕ → α), m.flatMap (fun i => [g i]) = m.map g := by
    intro m g; induction m <;> simp [*]
  rw [h1]
  apply List.ext_getElem
  · simp
  · intro i h1 h2
    simp [List.getElem?_eq_getElem h2]

/-- Sutherland-Hodgman against `z >= 0` is the identity on a polygon that is
entirely on the closed front hemisphere. -/
lemma clipPolygon_all_front (pts : List Vec3) (hall : ∀ p ∈ pts, 0 ≤ p.z) :
    clipPolygonToFrontHemisphere pts = pts := by
  by_cases h0 : pts.length = 0
  · simp [clipPolygonToFrontHemisphere, h0, List.length_eq_zero.mp h0]
  · have hpos : 0 < pts.length := Nat.pos_of_ne_zero h0
    simp only [clipPolygonToFrontHemisphere, h0, if_false]
    refine (List.flatMap_congr ?_).trans (flatMap_singleton_getD pts ⟨0, 0, 0⟩)
    intro i hi
    rw [List.mem_range] at hi
    have hc : (0 : ℝ) ≤ (pts[i]?.getD ⟨0, 0, 0⟩).z :=
      hall _ (getD_mem_of_lt pts ⟨0, 0, 0⟩ i hi)
    have hp : (0 : ℝ) ≤ (pts[(i + pts.length - 1) % pts.length]?.getD ⟨0, 0, 0⟩).z :=
      hall _ (getD_mem_of_lt pts ⟨0, 0, 0⟩ _ (Nat.mod_lt _ hpos))
    simp [hc, hp, not_lt.mpr hp]

/-- Sutherland-Hodgman against `z >= 0` empties a polygon that is entirely on
the open back hemisphere. -/
lemma clipPolygon_all_back (pts : List Vec3) (hall : ∀ p ∈ pts, p.z < 0) :
    clipPolygonToFrontHemisphere pts = [] := by
  by_cases h0 : pts.length = 0
  · simp [clipPolygonToFrontHemisphere, h0]
  · have hpos : 0 < pts.length := Nat.pos_of_ne_zero h0
    simp only [clipPolygonToFrontHemisphere, h0, if_false]
    rw [List.flatMap_eq_nil_iff]
    intro i hi
    rw [List.mem_range] at hi
    have hc : (pts[i]?.getD ⟨0, 0, 0⟩).z < 0 :=
      hall _ (getD_mem_of_lt pts ⟨0, 0, 0⟩ i hi)
    have hp : (pts[(i + pts.length - 1) % pts.length]?.getD ⟨0, 0, 0⟩).z < 0 :=
      hall _ (getD_mem_of_lt pts ⟨0, 0, 0⟩ _ (Nat.mod_lt _ hpos))
    simp [not_le.mpr hc, not_le.mpr hp]

/-- The polyline clipper empties a point sequence that is entirely on the open
back hemisphere. -/
lemma clipPolyline_all_back (pts : List Vec3) (closed : Bool)
    (hall : ∀ p ∈ pts, p.z < 0) :
    clipPolylineToFrontHemisphere pts closed = [] := by
  by_cases h0 : pts.length = 0
  · simp [clipPolylineToFrontHemisphere, h0]
  · have hpos : 0 < pts.length := Nat.pos_of_ne_zero h0
    simp only [clipPolylineToFrontHemisphere, h0, if_false]
    rw [List.flatMap_eq_nil_iff]
    intro i hi
    have hc : (pts[i]?.getD ⟨0, 0, 0⟩).z < 0 := by
      rw [List.mem_range] at hi
      have hilt : i < pts.length := by
        refine lt_of_lt_of_le hi ?_
        cases closed <;> simp
      exact hall _ (getD_mem_of_lt pts ⟨0, 0, 0⟩ i hilt)
    have hn : (pts[(i + 1) % pts.length]?.getD ⟨0, 0, 0⟩).z < 0 :=
      hall _ (getD_mem_of_lt pts ⟨0, 0, 0⟩ _ (Nat.mod_lt _ hpos))
    simp [hc, not_le.mpr hc, not_le.mpr hn]

/-- C5: hemisphere clipping at the two extremes — a non-empty closed polygon
entirely on the front hemisphere (`z > 0`) keeps its vertex count (no
crossings inserted), and a sequence entirely on the back hemisphere (`z < 0`)
is mapped to the empty sequence by both clippers; the clippers are total
functions, so an empty result is an ordinary value, never an error. -/
theorem claim5_hemisphere_extremes :
    (∀ (pts : List Vec3), pts ≠ [] → (∀ p ∈ pts, 0 < p.z) →
      (clipPolygonToFrontHemisphere pts).length = pts.length) ∧
    (∀ (pts : List Vec3), (∀ p ∈ pts, p.z < 0) →
      clipPolygonToFrontHemisphere pts = []) ∧
    (∀ (pts : List Vec3) (closed : Bool), (∀ p ∈ pts, p.z < 0) →
      clipPolylineToFrontHemisphere pts closed = []) := by
  refine ⟨?_, ?_, ?_⟩
  · intro pts _ hall
    rw [clipPolygon_all_front pts (fun p hp => le_of_lt (hall p hp))]
  · intro pts hall
    exact clipPolygon_all_back pts hall
  · intro pts closed hall
    exact clipPolyline_all_back pts closed hall

/-- C5 witness: a triangle with all `z > 0` keeps its three vertices; a point
sequence with all `z < 0` is emptied by both clippers. -/
theorem claim5_witness :
    (clipPolygonToFrontHemisphere [⟨0, 0, 1⟩, ⟨1, 0, 2⟩, ⟨0, 1, 1⟩]).length =
      ([⟨0, 0, 1⟩, ⟨1, 0, 2⟩, ⟨0, 1, 1⟩] : List Vec3).length ∧
    clipPolygonToFrontHemisphere [⟨0, 0, -1⟩, ⟨1, 0, -2⟩] = [] ∧
    clipPolylineToFrontHemisphere [⟨0, 0, -1⟩, ⟨1, 1, -2⟩] false = [] :=
  ⟨claim5_hemisphere_extremes.1 _ (by simp)
      (by intro p hp; simp only [List.mem_cons, List.not_mem_nil, or_false] at hp
          rcases hp with rfl | rfl | rfl <;> norm_num),
   claim5_hemisphere_extremes.2.1 _
      (by intro p hp; simp only [List.mem_cons, List.not_mem_nil, or_false] at hp
          rcases hp with rfl | rfl <;> norm_num),
   claim5_hemisphere_extremes.2.2 _ false
      (by intro p hp; simp only [List.mem_cons, List.not_mem_nil, or_false] at hp
          rcases hp with rfl | rfl <;> norm_num)⟩

/-- Every point emitted by the polyline clipper has `z >= 0`. -/
lemma mem_clipPolyline_front (pts : List Vec3) (closed : Bool) (q : Vec3)
    (hq : q ∈ clipPolylineToFrontHemisphere pts closed) : 0 ≤ q.z := by
  by_cases h0 : pts.length = 0
  · simp [clipPolylineToFrontHemisphere, h0] at hq
  · simp only [clipPolylineToFrontHemisphere, h0, if_false] at hq
    rw [List.mem_flatMap] at hq
    obtain ⟨i, _, hqi⟩ := hq
    by_cases hc : (0 : ℝ) ≤ (pts[i]?.getD ⟨0, 0, 0⟩).z <;>
      by_cases hn : (0 : ℝ) ≤ (pts[(i + 1) % pts.length]?.getD ⟨0, 0, 0⟩).z
    · simp [hc, hn] at hqi
      rw [hqi]; exact hc
    · simp [hc, hn] at hqi
      rcases hqi with rfl | rfl
      · exact hc
      · simp [interpolateAtZ0]
    · simp [hc, hn] at hqi
      rw [hqi]; simp [interpolateAtZ0]
    · simp [hc, hn] at hqi

/-- Every point emitted by the polygon clipper has `z >= 0`. -/
lemma mem_clipPolygon_front (pts : List Vec3) (q : Vec3)
    (hq : q ∈ clipPolygonToFrontHemisphere pts) : 0 ≤ q.z := by
  by_cases h0 : pts.length = 0
  · simp [clipPolygonToFrontHemisphere, h0] at hq
  · simp only [clipPolygonToFrontHemisphere, h0, if_false] at hq
    rw [List.mem_flatMap] at hq
    obtain ⟨i, _, hqi⟩ := hq
    by_cases hc : (0 : ℝ) ≤ (pts[i]?.getD ⟨0, 0, 0⟩).z <;>
      by_cases hp : (0 : ℝ) ≤ (pts[(i + pts.length - 1) % pts.length]?.getD ⟨0, 0, 0⟩).z
    · simp [hc, hp] at hqi
      rw [hqi]; exact hc
    · simp [hc, hp] at hqi
      rcases hqi with rfl | rfl
      · simp [interpolateAtZ0]
      · exact hc
    · simp [hc, hp] at hqi
      rw [hqi]; simp [interpolateAtZ0]
    · simp [hc, hp] at hqi

/-- A point with `z >= 0` is never culled by the front-facing orthographic
projector. -/
lemma projectOrthographic_of_front (q : Vec3) (h : 0 ≤ q.z) :
    projectOrthographic q false = some ⟨q.x, q.y⟩ := by
  simp [projectOrthographic, not_lt.mpr h]

/-- C10: inserted crossings have `z` exactly `0`; every point output by either
hemisphere clipper satisfies `z >= 0`; hence the subsequent front-facing
orthographic projection never culls a hemisphere-clipped point. -/
theorem claim10_clipped_points_not_culled :
    (∀ (p0 p1 : Vec3), (interpolateAtZ0 p0 p1).z = 0) ∧
    (∀ (pts : List Vec3) (closed : Bool) (q : Vec3),
      q ∈ clipPolylineToFrontHemisphere pts closed →
        0 ≤ q.z ∧ projectOrthographic q false = some ⟨q.x, q.y⟩) ∧
    (∀ (pts : List Vec3) (q : Vec3),
      q ∈ clipPolygonToFrontHemisphere pts →
        0 ≤ q.z ∧ projectOrthographic q false = some ⟨q.x, q.y⟩) := by
  refine ⟨fun p0 p1 => rfl, ?_, ?_⟩
  · intro pts closed q hq
    have h := mem_clipPolyline_front pts closed q hq
    exact ⟨h, projectOrthographic_of_front q h⟩
  · intro pts q hq
    have h := mem_clipPolygon_front pts q hq
    exact ⟨h, projectOrthographic_of_front q h⟩

/-- C10 witness: instantiation at a one-point front-facing polyline and
polygon, whose clipped outputs contain the point itself. -/
theorem claim10_witness :
    ((0 : ℝ) ≤ (⟨2, 3, 1⟩ : Vec3).z ∧
      projectOrthographic ⟨2, 3, 1⟩ false = some ⟨(⟨2, 3, 1⟩ : Vec3).x, (⟨2, 3, 1⟩ : Vec3).y⟩) ∧
    ((0 : ℝ) ≤ (⟨5, 6, 2⟩ : Vec3).z ∧
      projectOrthographic ⟨5, 6, 2⟩ false = some ⟨(⟨5, 6, 2⟩ : Vec3).x, (⟨5, 6, 2⟩ : Vec3).y⟩) :=
  ⟨claim10_clipped_points_not_culled.2.1 [⟨2, 3, 1⟩] true ⟨2, 3, 1⟩
      (by norm_num [clipPolylineToFrontHemisphere, List.range_succ]),
   claim10_clipped_points_not_culled.2.2 [⟨5, 6, 2⟩] ⟨5, 6, 2⟩
      (by norm_num [clipPolygonToFrontHemisphere, List.range_succ])⟩

/-! ## C8: silhouette clipper on fully-inside polygons -/

/-- The defaulted last element of a non-empty list is a member. -/
lemma getLastD_mem {α : Type} : ∀ (t : List α) (q d : α), (q :: t).getLastD d ∈ q :: t := by
  intro t
  induction t with
  | nil => intro q d; simp
  | cons b t' ih =>
      intro q d
      rw [List.getLastD_cons]
      exact List.mem_cons_of_mem q (ih b q)

/-- Folding the silhouette-clip step over vertices that are all inside the
unit circle, starting from an inside previous vertex with no pending arc,
appends the vertices verbatim and leaves no pending arc. -/
lemma clipFill_fold_inside (ccw : Bool) : ∀ (l : List Vec2XY) (st : ArcClipState),
    (∀ p ∈ l, insideUnit p = true) → st.prevInside = true → st.pending = none →
    ((l.foldl (clipFillStep ccw) st).output = st.output ++ l ∧
      (l.foldl (clipFillStep ccw) st).pending = none) := by
  intro l
  induction l with
  | nil => intro st _ _ hpend; simp [hpend]
  | cons c t ih =>
      intro st hall hprev hpend
      have hc : insideUnit c = true := hall c (List.mem_cons_self c t)
      have hstep : clipFillStep ccw st c =
          { output := st.output ++ [c], pending := st.pending, prev := c,
            prevInside := insideUnit c } := by
        simp [clipFillStep, hprev, hc]
      rw [List.foldl_cons, hstep]
      have hrec := ih
        { output := st.output ++ [c], pending := st.pending, prev := c,
          prevInside := insideUnit c }
        (fun p hp => hall p (List.mem_cons_of_mem c hp)) (by simp [hc]) (by simp [hpend])
      refine ⟨?_, hrec.2⟩
      rw [hrec.1]
      simp

/-- C8: for every closed 2D polygon whose vertices all lie inside the unit
circle (`x*x + y*y <= 1 + 1e-9`), `clipFillWithArcs` returns the vertex
sequence unchanged — zero arc points inserted. -/
theorem claim8_silhouette_inside_unchanged : ∀ (pts : List Vec2XY),
    (∀ p ∈ pts, p.x * p.x + p.y * p.y ≤ 1 + 1 / 1000000000) →
    clipFillWithArcs pts = pts := by
  intro pts hin
  cases pts with
  | nil => rfl
  | cons q t =>
      have hall : ∀ p ∈ q :: t, insideUnit p = true := fun p hp =>
        decide_eq_true (hin p hp)
      have hlast : insideUnit ((q :: t).getLastD ⟨0, 0⟩) = true :=
        hall _ (getLastD_mem t q ⟨0, 0⟩)
      simp only [clipFillWithArcs]
      have hfold := clipFill_fold_inside (decide (0 ≤ polygonArea (q :: t))) (q :: t)
        ⟨[], none, (q :: t).getLastD ⟨0, 0⟩, insideUnit ((q :: t).getLastD ⟨0, 0⟩)⟩
        hall hlast rfl
      rcases hfold with ⟨hout, hpend⟩
      rw [hpend, hout]
      simp

/-- C8 witness: a triangle strictly inside the unit circle is returned
unchanged. -/
theorem claim8_witness :
    clipFillWithArcs [⟨0, 0⟩, ⟨1 / 2, 0⟩, ⟨0, 1 / 2⟩] =
      [⟨0, 0⟩, ⟨1 / 2, 0⟩, ⟨0, 1 / 2⟩] :=
  claim8_silhouette_inside_unchanged _
    (by intro p hp
        simp only [List.mem_cons, List.not_mem_nil, or_false] at hp
        rcases hp with rfl | rfl | rfl <;> norm_num)

/-! ## C9: circle tessellation density vs chord deviation -/

/-- Consecutive pairs of a mapped index range. -/
lemma zip_tail_range_map {α : Type} (f : ℕ → α) (n : ℕ) :
    (((List.range (n + 1)).map f).zip ((List.range (n + 1)).map f).tail) =
      (List.range n).map (fun i => (f i, f (i + 1))) := by
  apply List.ext_getElem
  · simp
  · intro i h1 h2
    simp [List.getElem_zip, List.getElem_tail]

/-- Folding `max` over a non-empty constant list. -/
lemma foldr_max_const (σ : ℝ) : ∀ (l : List ℝ), l ≠ [] → (∀ x ∈ l, x = σ) →
    l.foldr max 0 = max σ 0 := by
  intro l
  induction l with
  | nil => simp
  | cons a t ih =>
      intro _ hx
      cases t with
      | nil => simp [hx a (List.mem_cons_self a [])]
      | cons b t' =>
          rw [List.foldr_cons, ih (by simp) (fun x h => hx x (List.mem_cons_of_mem a h)),
            hx a (List.mem_cons_self _ _), ← max_assoc, max_self]

/-- Every chord of the uniform circle tessellation with `n` steps has sagitta
`r - |r| * cos (pi / n)`. -/
lemma circle_chord_sagitta (c : Vec2) (r : ℝ) (n : ℕ) (hn : 2 ≤ n) (i : ℕ) :
    chordDeviation c r
      ⟨c.u + r * Real.cos (((i : ℝ) / (n : ℝ)) * Real.pi * 2),
       c.v + r * Real.sin (((i : ℝ) / (n : ℝ)) * Real.pi * 2)⟩
      ⟨c.u + r * Real.cos ((((i + 1 : ℕ) : ℝ) / (n : ℝ)) * Real.pi * 2),
       c.v + r * Real.sin ((((i + 1 : ℕ) : ℝ) / (n : ℝ)) * Real.pi * 2)⟩
    = r - |r| * Real.cos (Real.pi / (n : ℝ)) := by
  have hn0 : (0 : ℝ) < (n : ℝ) := by exact_mod_cast (by omega : 0 < n)
  set A : ℝ := ((i : ℝ) / (n : ℝ)) * Real.pi * 2 with hA
  set B : ℝ := (((i + 1 : ℕ) : ℝ) / (n : ℝ)) * Real.pi * 2 with hB
  have h2 : (A - B) / 2 = -(Real.pi / (n : ℝ)) := by
    rw [hA, hB]
    push_cast
    field_simp
    ring
  have hcc := Real.cos_add_cos A B
  have e1 : ((A + B) / 2 - (A - B) / 2) = B := by ring
  have e2 : ((A + B) / 2 + (A - B) / 2) = A := by ring
  have hss0 := Real.two_mul_sin_mul_cos ((A + B) / 2) ((A - B) / 2)
  rw [e1, e2] at hss0
  have hss : Real.sin A + Real.sin B =
      2 * Real.sin ((A + B) / 2) * Real.cos ((A - B) / 2) := by linarith
  rw [h2, Real.cos_neg] at hcc hss
  have hcos : (0 : ℝ) ≤ Real.cos (Real.pi / (n : ℝ)) := by
    apply Real.cos_nonneg_of_mem_Icc
    constructor
    · have h1 : (0 : ℝ) ≤ Real.pi / (n : ℝ) := by positivity
      linarith [Real.pi_pos]
    · rw [div_le_div_iff₀ hn0 (by norm_num : (0 : ℝ) < 2)]
      nlinarith [mul_le_mul_of_nonneg_left (by exact_mod_cast hn : (2 : ℝ) ≤ (n : ℝ))
        Real.pi_pos.le]
  have harg : ((c.u + r * Real.cos A + (c.u + r * Real.cos B)) / 2 - c.u) ^ 2 +
      ((c.v + r * Real.sin A + (c.v + r * Real.sin B)) / 2 - c.v) ^ 2
      = (r * Real.cos (Real.pi / (n : ℝ))) ^ 2 := by
    have hexp1 : (c.u + r * Real.cos A + (c.u + r * Real.cos B)) / 2 - c.u
        = r * (Real.cos A + Real.cos B) / 2 := by ring
    have hexp2 : (c.v + r * Real.sin A + (c.v + r * Real.sin B)) / 2 - c.v
        = r * (Real.sin A + Real.sin B) / 2 := by ring
    rw [hexp1, hexp2, hcc, hss]
    nlinarith [Real.sin_sq_add_cos_sq ((A + B) / 2)]
  simp only [chordDeviation]
  rw [harg, Real.sqrt_sq_eq_abs, abs_mul, abs_of_nonneg hcos]

/-- On a circle-tagged shape the tessellator routes to `sampleCircle`. -/
lemma tessellate_circle_tag (shape : Shape) (h : shape.type = "circle") (d : Nat) :
    tessellateShape shape d = sampleCircle shape d := by
  simp [tessellateShape, h]

/-- Closed form of the maximum chord deviation of a tessellated circle:
all chords have the same sagitta `r - |r| * cos (pi / steps)` with
`steps = max 64 (2 * density)`. -/
lemma maxChordDeviation_circle (shape : Shape) (h : shape.type = "circle") (d : Nat) :
    maxChordDeviation shape d =
      max (shape.radius - |shape.radius| *
        Real.cos (Real.pi / ((max 64 (d * 2) : ℕ) : ℝ))) 0 := by
  have ht := tessellate_circle_tag shape h d
  simp only [maxChordDeviation, ht, sampleCircle]
  rw [zip_tail_range_map, List.map_map]
  apply foldr_max_const
  · simp only [ne_eq, List.map_eq_nil_iff, List.range_eq_nil]
    omega
  · intro x hx
    rw [List.mem_map] at hx
    obtain ⟨i, _, rfl⟩ := hx
    exact circle_chord_sagitta shape.center shape.radius _
      (le_trans (by norm_num) (le_max_left 64 (d * 2))) i

/-- The per-chord sagitta is antitone in the step count. -/
lemma sagitta_mono (r : ℝ) (n1 n2 : ℕ) (h1 : 2 ≤ n1) (h12 : n1 ≤ n2) :
    r - |r| * Real.cos (Real.pi / (n2 : ℝ)) ≤ r - |r| * Real.cos (Real.pi / (n1 : ℝ)) := by
  have hn1 : (0 : ℝ) < (n1 : ℝ) := by exact_mod_cast (by omega : 0 < n1)
  have hn2 : (0 : ℝ) < (n2 : ℝ) := by exact_mod_cast (by omega : 0 < n2)
  have hdivs : Real.pi / (n2 : ℝ) ≤ Real.pi / (n1 : ℝ) := by
    apply div_le_div_of_nonneg_left Real.pi_pos.le hn1
    exact_mod_cast h12
  have hcos : Real.cos (Real.pi / (n1 : ℝ)) ≤ Real.cos (Real.pi / (n2 : ℝ)) := by
    apply Real.cos_le_cos_of_nonneg_of_le_pi
    · positivity
    · have h := div_le_div_of_nonneg_left Real.pi_pos.le (by norm_num : (0 : ℝ) < 1)
        (by exact_mod_cast (by omega : 1 ≤ n1) : (1 : ℝ) ≤ (n1 : ℝ))
      simpa using h
    · exact hdivs
  nlinarith [abs_nonneg r, mul_le_mul_of_nonneg_left hcos (abs_nonneg r)]

/-- C9: for every circle shape and densities `d1 <= d2`, the maximum chord
deviation of the tessellation from the analytic circle at density `d2` is not
greater than at density `d1` — higher density never increases deviation. -/
theorem claim9_density_never_increases_deviation : ∀ (shape : Shape) (d1 d2 : Nat),
    shape.type = "circle" → d1 ≤ d2 →
    maxChordDeviation shape d2 ≤ maxChordDeviation shape d1 := by
  intro shape d1 d2 h hd
  rw [maxChordDeviation_circle shape h d1, maxChordDeviation_circle shape h d2]
  have hsteps : max 64 (d1 * 2) ≤ max 64 (d2 * 2) := by omega
  exact max_le_max (sagitta_mono shape.radius _ _ (by omega) hsteps) le_rfl

/-- C9 witness: the circle shape at densities 3 and 5. -/
theorem claim9_witness :
    maxChordDeviation circleEx 5 ≤ maxChordDeviation circleEx 3 :=
  claim9_density_never_increases_deviation circleEx 3 5 rfl (by norm_num)

end Jojosphere

end
